import Mathlib

/-!
Verification of the command-line interpretation and dispatch engine of
`wrap.py` (an interactive REPL wrapper around a subcommand-style CLI).

Strings are modelled as `List Char`.  The side effects of one dispatched
command (stdout prints, stderr prints, process spawns, shell escapes,
directory changes) are modelled as an explicit event list, and the external
process-execution / readline / filesystem services are modelled by an
`Env` record holding their responses.
-/

namespace Wrap

/-- Strings of the embedded program, modelled as character lists. -/
abbrev Str := List Char

/-- Variable store: Python dict of str to str, i.e. an insertion-ordered
association list with unique keys (`vars_map` in wrap.py). -/
abbrev VMap := List (Str × Str)

/-- Whitespace stripped by Python `str.strip()` (ASCII part). -/
def isSpaceChar (c : Char) : Bool :=
  c == ' ' || c == '\t' || c == '\n' || c == '\r' || c == '\x0b' || c == '\x0c'

/-- Python `s.strip()`: drop whitespace from both ends. -/
def pyStrip (s : Str) : Str :=
  ((s.dropWhile isSpaceChar).reverse.dropWhile isSpaceChar).reverse

/-- `os.path.basename`: the part after the last slash. -/
def basename (s : Str) : Str :=
  (s.reverse.takeWhile (fun c => !(c == '/'))).reverse

/-- Python dict lookup `vars_map.get k` (keys are unique, first hit wins). -/
def lookupV (vars : VMap) (k : Str) : Option Str :=
  match vars with
  | [] => none
  | (k', v) :: rest => if k' = k then some v else lookupV rest k

/-- Python dict assignment `vars_map[k] = v`: replace the value in place if
the key exists, keeping its position, else append the new binding. -/
def setV (vars : VMap) (k : Str) (v : Str) : VMap :=
  match vars with
  | [] => [(k, v)]
  | (k', v') :: rest => if k' = k then (k, v) :: rest else (k', v') :: setV rest k v

/-- Python `rest.split("=", 1)`, as an option: `none` when `=` does not
occur, otherwise the parts before and after the first `=`. -/
def splitFirstEq : Str → Option (Str × Str)
  | [] => none
  | c :: r =>
    if c = '=' then some ([], r)
    else (splitFirstEq r).map (fun p => (c :: p.1, p.2))

/-! ## Substitution engine: `expand_vars` (wrap.py lines 130-134)

`re.sub(r"\$\{([A-Za-z_][A-Za-z0-9_]*)\}", repl, s)` replaces each
left-to-right, non-overlapping match of a dollar-brace reference by the
store's value when the identifier is a key, and by the matched text itself
otherwise, in one pass.  `expandLoop` scans the characters directly; the
fuel argument (instantiated with the input's length, which each step
consumes at least one character of) keeps the recursion structural. -/

/-- First character of the regex identifier class, `[A-Za-z_]`. -/
def isIdentStart (c : Char) : Bool := c.isAlpha || c == '_'

/-- Later characters of the regex identifier class, `[A-Za-z0-9_]`. -/
def isIdentChar (c : Char) : Bool := c.isAlphanum || c == '_'

/-- Whole-string identifier test for `[A-Za-z_][A-Za-z0-9_]*`. -/
def isValidIdent : Str → Bool
  | [] => false
  | c :: r => isIdentStart c && r.all isIdentChar

/-- Try to read `identifier}` at the start of the input (the part of a
reference after the opening dollar-brace); on success return the
identifier and the characters after the closing brace. -/
def matchVar : Str → Option (Str × Str)
  | [] => none
  | c :: rest =>
    if isIdentStart c then
      match rest.dropWhile isIdentChar with
      | '}' :: rest' => some (c :: rest.takeWhile isIdentChar, rest')
      | _ => none
    else none

/-- One left-to-right substitution pass.  At a `$` followed by `{` the
scanner tries to match a full reference: on success it emits the store's
value (or the matched text verbatim for an unknown key) and resumes after
the closing brace, never rescanning the emitted value; on failure it emits
the two characters and resumes after the `{` (a fresh match can only start
at a later `$`).  Any other character is copied. -/
def expandLoop (V : VMap) : Nat → Str → Str
  | 0, s => s
  | _ + 1, [] => []
  | fuel + 1, c :: rest =>
    if c = '$' ∧ rest.head? = some '{' then
      match matchVar rest.tail with
      | some (id, rest') =>
        match lookupV V id with
        | some v => v ++ expandLoop V fuel rest'
        | none => '$' :: '{' :: (id ++ '}' :: expandLoop V fuel rest')
      | none => '$' :: '{' :: expandLoop V fuel rest.tail
    else c :: expandLoop V fuel rest

/-- `expand_vars(s, vars_map)` of wrap.py. -/
def expandVars (s : Str) (V : VMap) : Str := expandLoop V s.length s

/-- Does the string contain the two-character sequence dollar-brace
(the only place a reference can start)? -/
def hasDollarBrace : Str → Bool
  | [] => false
  | [_] => false
  | c1 :: c2 :: rest => (c1 == '$' && c2 == '{') || hasDollarBrace (c2 :: rest)

/-! ## Tokenizer: `shlex.split` (wrap.py line 202)

Faithful embedding of CPython's `shlex` in POSIX mode with
`whitespace_split=True` and no comment characters, the configuration
`shlex.split` uses: whitespace separates tokens, single quotes group
verbatim, double quotes group with backslash escaping only `"` and `\`,
a backslash outside quotes escapes any character, and an unterminated
quote or trailing escape raises `ValueError` (modelled as `Except.error`
with the CPython message). -/

/-- `shlex.whitespace`. -/
def isWsChar (c : Char) : Bool := c == ' ' || c == '\t' || c == '\r' || c == '\n'

/-- Lexer state: between tokens, inside a word, inside single or double
quotes, or after a backslash seen outside quotes (`escW`, returning to the
word state) or inside double quotes (`escD`, returning to them). -/
inductive SLState where
  | ws | wrd | sq | dq | escW | escD
deriving DecidableEq

/-- The `shlex.read_token` character loop: one transition per input
character over (state, current token, was-quoted flag, emitted tokens). -/
def shlexGo : SLState → Str → Bool → List Str → Str → Except Str (List Str)
  | st, acc, quoted, out, [] =>
    match st with
    | .ws => if acc ≠ [] ∨ quoted = true then .ok (out ++ [acc]) else .ok out
    | .wrd => if acc ≠ [] ∨ quoted = true then .ok (out ++ [acc]) else .ok out
    | .sq => .error "No closing quotation".data
    | .dq => .error "No closing quotation".data
    | .escW => .error "No escaped character".data
    | .escD => .error "No escaped character".data
  | st, acc, quoted, out, c :: rest =>
    match st with
    | .ws =>
      if isWsChar c then
        if acc ≠ [] ∨ quoted = true then shlexGo .ws [] false (out ++ [acc]) rest
        else shlexGo .ws acc quoted out rest
      else if c = '\\' then shlexGo .escW acc quoted out rest
      else if c = '\'' then shlexGo .sq acc true out rest
      else if c = '"' then shlexGo .dq acc true out rest
      else shlexGo .wrd (acc ++ [c]) quoted out rest
    | .wrd =>
      if isWsChar c then
        if acc ≠ [] ∨ quoted = true then shlexGo .ws [] false (out ++ [acc]) rest
        else shlexGo .ws acc quoted out rest
      else if c = '\'' then shlexGo .sq acc true out rest
      else if c = '"' then shlexGo .dq acc true out rest
      else if c = '\\' then shlexGo .escW acc quoted out rest
      else shlexGo .wrd (acc ++ [c]) quoted out rest
    | .sq =>
      if c = '\'' then shlexGo .wrd acc quoted out rest
      else shlexGo .sq (acc ++ [c]) quoted out rest
    | .dq =>
      if c = '"' then shlexGo .wrd acc quoted out rest
      else if c = '\\' then shlexGo .escD acc quoted out rest
      else shlexGo .dq (acc ++ [c]) quoted out rest
    | .escW => shlexGo .wrd (acc ++ [c]) quoted out rest
    | .escD =>
      if c = '\\' ∨ c = '"' then shlexGo .dq (acc ++ [c]) quoted out rest
      else shlexGo .dq (acc ++ ['\\', c]) quoted out rest

/-- `shlex.split(s)` in POSIX mode: the full token list, or the
`ValueError` message on malformed quoting. -/
def shlexSplit (s : Str) : Except Str (List Str) := shlexGo .ws [] false [] s

/-! ## Command dispatch: `handle_command` (wrap.py lines 137-219) -/

/-- Observable side effects of handling one line: stdout print, stderr
print (`_print_err`), child-process spawn (`subprocess.Popen(full)`),
shell escape (`subprocess.call(cmd, shell=True)`), `os.chdir` attempt. -/
inductive Event where
  | out (s : Str)
  | err (s : Str)
  | spawn (argv : List Str)
  | shell (cmd : Str)
  | chdir (path : Str)
deriving DecidableEq

/-- Return value of `handle_command`: the Python strings `"continue"` and
`"break"`, and `None` (falling off the end after forwarding). -/
inductive Outcome where
  | contO | brkO | nrmO
deriving DecidableEq

/-- Response of the external process service to `subprocess.Popen(full)`
followed by `proc.wait()`: `FileNotFoundError`, normal exit with a status,
or some other spawn-time exception with message `msg`. -/
inductive SpawnRes where
  | notFound
  | exited (rc : Int)
  | failed (msg : Str)
deriving DecidableEq

/-- Responses of the external services for one dispatched line: whether
readline is available and its recorded history, the current working
directory, the `os.chdir` result per path (`some msg` = exception with
that message), the exit status of a shell escape, and the process
service's response to a spawn. -/
structure Env where
  haveReadline : Bool
  history : List Str
  cwd : Str
  chdirErr : Str → Option Str
  shellRc : Int
  spawnRes : SpawnRes

/-- The fixed `:help` output, lines 150-156 of wrap.py. -/
def helpLines : List Str :=
  [":help                - this help".data,
   ":set k=v            - set vars, used as ${k}".data,
   ":vars               - list current variables".data,
   ":pwd                - print working directory".data,
   ":cd <path>          - change directory".data,
   ":history            - show history (readline)".data,
   ":exit | :quit | :q  - exit".data]

/-- Built-in dispatch on the stripped text after `:`, lines 146-185.
Returns the outcome, the emitted events and the updated variable store. -/
def handleBuiltin (cmd : Str) (vars : VMap) (env : Env) : Outcome × List Event × VMap :=
  if cmd = "q".data ∨ cmd = "quit".data ∨ cmd = "exit".data then
    (.brkO, [], vars)
  else if cmd = "help".data then
    (.contO, helpLines.map Event.out, vars)
  else if "set ".data.isPrefixOf cmd then
    match splitFirstEq (pyStrip (cmd.drop 4)) with
    | some kv => (.contO, [], setV vars (pyStrip kv.1) (pyStrip kv.2))
    | none => (.contO, [Event.err "Usage: :set key=value".data], vars)
  else if cmd = "vars".data then
    (.contO, vars.map (fun kv => Event.out (kv.1 ++ '=' :: kv.2)), vars)
  else if cmd = "pwd".data then
    (.contO, [Event.out env.cwd], vars)
  else if "cd ".data.isPrefixOf cmd then
    match env.chdirErr (pyStrip (cmd.drop 3)) with
    | none => (.contO, [Event.chdir (pyStrip (cmd.drop 3))], vars)
    | some e => (.contO, [Event.chdir (pyStrip (cmd.drop 3)),
                          Event.err ("cd: ".data ++ e)], vars)
  else if cmd = "history".data ∧ env.haveReadline = true then
    (.contO, env.history.map Event.out, vars)
  else
    (.contO, [Event.err "Unknown built-in. Use :help".data], vars)

/-- Shell escape, lines 188-195: strip the text after `!`; an empty
command does nothing; otherwise run it through the shell and report a
non-zero exit status on the error stream. -/
def handleShell (rest : Str) (vars : VMap) (env : Env) : Outcome × List Event × VMap :=
  let shellCmd := pyStrip rest
  if shellCmd = [] then (.contO, [], vars)
  else if env.shellRc ≠ 0 then
    (.contO, [Event.shell shellCmd,
              Event.err ("[shell] exited with code " ++ toString env.shellRc).data], vars)
  else (.contO, [Event.shell shellCmd], vars)

/-- The message of line 212: basename of the base command in brackets
plus the child's exit status. -/
def exitedMsg (base : Str) (rc : Int) : Str :=
  '[' :: basename base ++ ("] exited with code " ++ toString rc).data

/-- Forwarding, lines 197-219: expand variables, tokenize, and spawn
`[base_cmd] + base_args + args`; a parse error is reported and handled
(`"continue"`); `FileNotFoundError` reports "Command not found" and
returns `"break"`; a non-zero child status is reported; other spawn
failures are reported; these all fall through to `None`. -/
def handleForward (raw base : Str) (baseArgs : List Str) (vars : VMap) (env : Env) :
    Outcome × List Event × VMap :=
  match shlexSplit (expandVars raw vars) with
  | .error e => (.contO, [Event.err ("parse error: ".data ++ e)], vars)
  | .ok args =>
    let full := base :: baseArgs ++ args
    match env.spawnRes with
    | .notFound => (.brkO, [Event.spawn full,
                            Event.err ("Command not found: ".data ++ base)], vars)
    | .exited rc =>
      if rc ≠ 0 then (.nrmO, [Event.spawn full, Event.err (exitedMsg base rc)], vars)
      else (.nrmO, [Event.spawn full], vars)
    | .failed msg => (.nrmO, [Event.spawn full, Event.err msg], vars)

/-- `handle_command(raw, base_cmd, base_args, vars_map)`: classify on the
first character (`:` built-in, `!` shell escape, otherwise forward). -/
def handleCommand (raw base : Str) (baseArgs : List Str) (vars : VMap) (env : Env) :
    Outcome × List Event × VMap :=
  if raw.head? = some ':' then handleBuiltin (pyStrip (raw.drop 1)) vars env
  else if raw.head? = some '!' then handleShell (raw.drop 1) vars env
  else handleForward raw base baseArgs vars env

/-! ## Multi-line reading (wrap.py lines 234-243) -/

/-- The inner read loop: takes the pending segments and the remaining
input lines; a line ending in a backslash is buffered with the backslash
stripped and reading continues; otherwise the line completes the logical
command.  `none` models `EOFError` (end of input mid-read). -/
def collectParts (parts : List Str) : List Str → Option (List Str × List Str)
  | [] => none
  | l :: rest =>
    if l.getLast? = some '\\' then collectParts (parts ++ [l.dropLast]) rest
    else some (parts ++ [l], rest)

/-- One read cycle: gather continuation segments, join them with no
separator (`"".join(line_parts)`) and strip, yielding the logical raw
line and the unconsumed input. -/
def readLogical (input : List Str) : Option (Str × List Str) :=
  match collectParts [] input with
  | none => none
  | some pr => some (pyStrip pr.1.flatten, pr.2)

end Wrap
namespace Wrap

deriving instance DecidableEq for Except

theorem expandLoop_nil (V : VMap) (f : Nat) : expandLoop V f [] = [] := by
  cases f <;> rfl

theorem hasDollarBrace_cons {c : Char} {s : Str}
    (h : hasDollarBrace (c :: s) = false) : hasDollarBrace s = false := by
  cases s with
  | nil => rfl
  | cons c2 r =>
    simp only [hasDollarBrace, Bool.or_eq_false_iff] at h
    exact h.2

theorem expandLoop_no_ref (V : VMap) (f : Nat) (s : Str)
    (h : hasDollarBrace s = false) : expandLoop V f s = s := by
  induction f generalizing s with
  | zero => rfl
  | succ f ih =>
    cases s with
    | nil => rfl
    | cons c rest =>
      have hcond : ¬(c = '$' ∧ rest.head? = some '{') := by
        rintro ⟨hc, hh⟩
        cases rest with
        | nil => simp at hh
        | cons c2 r =>
          simp only [List.head?_cons, Option.some.injEq] at hh
          subst hc hh
          simp [hasDollarBrace] at h
      rw [expandLoop, if_neg hcond]
      exact congrArg (c :: ·) (ih rest (hasDollarBrace_cons h))

theorem expandVars_no_ref (s : Str) (V : VMap) (h : hasDollarBrace s = false) :
    expandVars s V = s :=
  expandLoop_no_ref V s.length s h

theorem takeWhile_all_append (p : Char → Bool) (l : Str) (x : Char) (r : Str)
    (hl : l.all p = true) (hx : p x = false) :
    (l ++ x :: r).takeWhile p = l ∧ (l ++ x :: r).dropWhile p = x :: r := by
  induction l with
  | nil => simp [List.takeWhile, List.dropWhile, hx]
  | cons a l ih =>
    simp only [List.all_cons, Bool.and_eq_true] at hl
    simpa [List.takeWhile, List.dropWhile, hl.1] using ih hl.2

theorem matchVar_ident (k : Str) (r : Str) (hk : isValidIdent k = true) :
    matchVar (k ++ '}' :: r) = some (k, r) := by
  cases k with
  | nil => simp [isValidIdent] at hk
  | cons c kr =>
    simp only [isValidIdent, Bool.and_eq_true] at hk
    have h2 := takeWhile_all_append isIdentChar kr '}' r hk.2 (by decide)
    simp [matchVar, hk.1, h2.1, h2.2]

theorem expandVars_known (V : VMap) (k v : Str) (hk : isValidIdent k = true)
    (hv : lookupV V k = some v) :
    expandVars ('$' :: '{' :: (k ++ ['}'])) V = v := by
  have hm := matchVar_ident k [] hk
  simp only [expandVars, List.length_cons]
  rw [expandLoop, if_pos ⟨rfl, rfl⟩]
  simp only [List.tail_cons]
  rw [hm]
  dsimp only
  rw [hv]
  simp [expandLoop_nil]

theorem expandVars_unknown (V : VMap) (k : Str) (hk : isValidIdent k = true)
    (hv : lookupV V k = none) :
    expandVars ('$' :: '{' :: (k ++ ['}'])) V = '$' :: '{' :: (k ++ ['}']) := by
  have hm := matchVar_ident k [] hk
  simp only [expandVars, List.length_cons]
  rw [expandLoop, if_pos ⟨rfl, rfl⟩]
  simp only [List.tail_cons]
  rw [hm]
  dsimp only
  rw [hv]
  simp [expandLoop_nil]

end Wrap
namespace Wrap

/-- A default environment for concrete instantiations: readline active with
empty history, empty cwd, chdir always succeeding, shell and child exiting
with status 0. -/
def env0 : Env := ⟨true, [], [], fun _ => none, 0, .exited 0⟩

theorem prefixOf_append (l t : Str) : l.isPrefixOf (l ++ t) = true := by
  induction l with
  | nil => simp [List.isPrefixOf]
  | cons a l ih => simp [List.isPrefixOf, ih]

theorem handleBuiltin_fst (cmd : Str) (V : VMap) (env : Env) :
    (handleBuiltin cmd V env).1 =
      if cmd = "q".data ∨ cmd = "quit".data ∨ cmd = "exit".data then .brkO
      else .contO := by
  unfold handleBuiltin
  split
  · rfl
  · repeat' split
    all_goals rfl

theorem handleBuiltin_no_spawn (cmd : Str) (V : VMap) (env : Env) (l : List Str) :
    Event.spawn l ∉ (handleBuiltin cmd V env).2.1 := by
  unfold handleBuiltin
  repeat' split
  all_goals simp

theorem handleBuiltin_vars_eq (cmd : Str) (V : VMap) (env : Env) :
    (handleBuiltin cmd V env).2.2 = V ∨
      ∃ k v, (handleBuiltin cmd V env).2.2 = setV V k v := by
  unfold handleBuiltin
  repeat' split
  all_goals (first
    | exact Or.inl rfl
    | exact Or.inr ⟨_, _, rfl⟩)

theorem handleShell_no_spawn (r : Str) (V : VMap) (env : Env) (l : List Str) :
    Event.spawn l ∉ (handleShell r V env).2.1 := by
  unfold handleShell
  by_cases h : pyStrip r = [] <;> by_cases h2 : env.shellRc ≠ 0 <;> simp [h, h2]

theorem handleShell_vars (r : Str) (V : VMap) (env : Env) :
    (handleShell r V env).2.2 = V := by
  unfold handleShell
  by_cases h : pyStrip r = [] <;> by_cases h2 : env.shellRc ≠ 0 <;> simp [h, h2]

theorem handleForward_vars (raw base : Str) (baseArgs : List Str) (V : VMap) (env : Env) :
    (handleForward raw base baseArgs V env).2.2 = V := by
  unfold handleForward
  rcases shlexSplit (expandVars raw V) with e | args
  · rfl
  · rcases env.spawnRes with _ | rc | m
    · rfl
    · dsimp only
      split <;> rfl
    · rfl

theorem handleBuiltin_set (rest0 : Str) (V : VMap) (env : Env) :
    handleBuiltin ("set ".data ++ rest0) V env =
      match splitFirstEq (pyStrip rest0) with
      | some kv => (.contO, [], setV V (pyStrip kv.1) (pyStrip kv.2))
      | none => (.contO, [Event.err "Usage: :set key=value".data], V) := by
  have he : "set ".data ++ rest0 = 's' :: 'e' :: 't' :: ' ' :: rest0 := rfl
  have hq : ¬("set ".data ++ rest0 = "q".data ∨ "set ".data ++ rest0 = "quit".data ∨
      "set ".data ++ rest0 = "exit".data) := by
    rw [he]; simp
  have hh : ¬("set ".data ++ rest0 = "help".data) := by rw [he]; simp
  have hd : ("set ".data ++ rest0).drop 4 = rest0 := rfl
  unfold handleBuiltin
  rw [if_neg hq, if_neg hh, if_pos (prefixOf_append "set ".data rest0), hd]

theorem handleBuiltin_history (V : VMap) (env : Env) (h : env.haveReadline = true) :
    handleBuiltin "history".data V env = (.contO, env.history.map Event.out, V) := by
  unfold handleBuiltin
  rw [if_neg (by decide), if_neg (by decide), if_neg (by decide), if_neg (by decide),
    if_neg (by decide), if_neg (by decide), if_pos ⟨rfl, h⟩]

/-- The keys of the store, in iteration order. -/
def keysOf (V : VMap) : List Str := V.map Prod.fst

theorem mem_keys_setV {x : Str} (V : VMap) (k v : Str)
    (h : x ∈ keysOf (setV V k v)) : x = k ∨ x ∈ keysOf V := by
  induction V with
  | nil => simpa [setV, keysOf] using h
  | cons kv rest ih =>
    obtain ⟨k', v'⟩ := kv
    by_cases hk : k' = k
    · subst hk
      simpa [setV, keysOf] using h
    · simp only [setV, if_neg hk, keysOf, List.map_cons, List.mem_cons] at h
      rcases h with h | h
      · exact Or.inr (by simp [keysOf, h])
      · rcases ih h with h1 | h1
        · exact Or.inl h1
        · refine Or.inr ?_
          simp only [keysOf, List.map_cons, List.mem_cons]
          exact Or.inr (by simpa [keysOf] using h1)

theorem setV_keys_nodup (V : VMap) (k v : Str) (h : (keysOf V).Nodup) :
    (keysOf (setV V k v)).Nodup := by
  induction V with
  | nil => simp [setV, keysOf]
  | cons kv rest ih =>
    obtain ⟨k', v'⟩ := kv
    simp only [keysOf, List.map_cons, List.nodup_cons] at h
    by_cases hk : k' = k
    · subst hk
      have hs : setV ((k', v') :: rest) k' v = (k', v) :: rest := by simp [setV]
      rw [hs]
      simp only [keysOf, List.map_cons, List.nodup_cons]
      exact ⟨by simpa [keysOf] using h.1, by simpa [keysOf] using h.2⟩
    · simp only [setV, if_neg hk, keysOf, List.map_cons, List.nodup_cons]
      refine ⟨?_, by simpa [keysOf] using ih (by simpa [keysOf] using h.2)⟩
      intro hmem
      rcases mem_keys_setV rest k v (by simpa [keysOf] using hmem) with h1 | h1
      · exact hk h1
      · exact h.1 (by simpa [keysOf] using h1)

theorem setV_lookup (V : VMap) (k v : Str) : lookupV (setV V k v) k = some v := by
  induction V with
  | nil => simp [setV, lookupV]
  | cons kv rest ih =>
    obtain ⟨k', v'⟩ := kv
    by_cases hk : k' = k
    · simp [setV, hk, lookupV]
    · simp [setV, hk, lookupV, ih]

theorem setV_idem (V : VMap) (k v : Str) : setV (setV V k v) k v = setV V k v := by
  induction V with
  | nil => simp [setV]
  | cons kv rest ih =>
    obtain ⟨k', v'⟩ := kv
    by_cases hk : k' = k
    · simp [setV, hk]
    · simp [setV, hk, ih]

theorem splitFirstEq_none_iff (s : Str) : splitFirstEq s = none ↔ '=' ∉ s := by
  induction s with
  | nil => simp [splitFirstEq]
  | cons c r ih =>
    by_cases hc : c = '='
    · subst hc; simp [splitFirstEq]
    · simp [splitFirstEq, hc, Option.map_eq_none', ih, Ne.symm hc]

end Wrap
namespace Wrap

theorem handleCommand_builtin (raw base : Str) (baseArgs : List Str) (V : VMap) (env : Env)
    (h : raw.head? = some ':') :
    handleCommand raw base baseArgs V env = handleBuiltin (pyStrip (raw.drop 1)) V env := by
  unfold handleCommand
  rw [if_pos h]

theorem handleCommand_shell (raw base : Str) (baseArgs : List Str) (V : VMap) (env : Env)
    (h : raw.head? = some '!') :
    handleCommand raw base baseArgs V env = handleShell (raw.drop 1) V env := by
  have h1 : raw.head? ≠ some ':' := by rw [h]; simp
  unfold handleCommand
  rw [if_neg h1, if_pos h]

theorem handleCommand_forward (raw base : Str) (baseArgs : List Str) (V : VMap) (env : Env)
    (h1 : raw.head? ≠ some ':') (h2 : raw.head? ≠ some '!') :
    handleCommand raw base baseArgs V env = handleForward raw base baseArgs V env := by
  unfold handleCommand
  rw [if_neg h1, if_neg h2]

theorem spawn_head_of_ok (raw base : Str) (baseArgs : List Str) (V : VMap) (env : Env)
    (args : List Str) (h1 : raw.head? ≠ some ':') (h2 : raw.head? ≠ some '!')
    (htok : shlexSplit (expandVars raw V) = .ok args) :
    ∃ tl, (handleCommand raw base baseArgs V env).2.1 =
        Event.spawn (base :: baseArgs ++ args) :: tl ∧ ∀ m, Event.spawn m ∉ tl := by
  rw [handleCommand_forward raw base baseArgs V env h1 h2]
  unfold handleForward
  rw [htok]
  dsimp only
  rcases env.spawnRes with _ | rc | m <;> dsimp only
  · exact ⟨_, rfl, by simp⟩
  · by_cases h : rc ≠ 0
    · rw [if_pos h]
      exact ⟨_, rfl, by simp⟩
    · rw [if_neg h]
      exact ⟨_, rfl, by simp⟩
  · exact ⟨_, rfl, by simp⟩

theorem collectParts_run (parts : List Str) (ls : List Str) (last : Str) (rest : List Str)
    (hls : ∀ l ∈ ls, l.getLast? = some '\\')
    (hlast : ¬ last.getLast? = some '\\') :
    collectParts parts (ls ++ last :: rest) =
      some (parts ++ ls.map List.dropLast ++ [last], rest) := by
  induction ls generalizing parts with
  | nil =>
    simp only [List.nil_append, collectParts, List.map_nil]
    rw [if_neg hlast]
    simp
  | cons l ls ih =>
    have hl := hls l (by simp)
    simp only [List.cons_append, collectParts, List.append_eq]
    rw [if_pos hl, ih (parts ++ [l.dropLast]) (fun x hx => hls x (by simp [hx]))]
    simp

end Wrap
namespace Wrap

/-- Environment whose process service reports `FileNotFoundError` on spawn. -/
def envNF : Env := ⟨true, [], [], fun _ => none, 0, .notFound⟩

/-- Environment whose spawned child exits with status 2. -/
def envRC2 : Env := ⟨true, [], [], fun _ => none, 0, .exited 2⟩

/-- Environment with one recorded history entry "alpha". -/
def envHist : Env := ⟨true, ["alpha".data], [], fun _ => none, 0, .exited 0⟩

/-- Claim C1: for every variable map and input, substitution replaces each
`${id}` occurrence (id an identifier) by the store's value when id is a key,
leaves the literal `${id}` text when it is not, returns strings without `${`
unchanged, and never rescans substituted values (single left-to-right
pass). -/
theorem expand_vars_spec :
    (∀ (V : VMap) (s : Str), hasDollarBrace s = false → expandVars s V = s)
    ∧ (∀ (V : VMap) (k v : Str), isValidIdent k = true → lookupV V k = some v →
        expandVars ('$' :: '{' :: (k ++ ['}'])) V = v)
    ∧ (∀ (V : VMap) (k : Str), isValidIdent k = true → lookupV V k = none →
        expandVars ('$' :: '{' :: (k ++ ['}'])) V = '$' :: '{' :: (k ++ ['}']))
    ∧ expandVars "${a} ${b} ${a}".data [("a".data, "1".data)] = "1 ${b} 1".data
    ∧ expandVars "${a}".data [("a".data, "${b}".data), ("b".data, "x".data)] = "${b}".data :=
  ⟨fun V s h => expandVars_no_ref s V h,
   fun V k v hk hv => expandVars_known V k v hk hv,
   fun V k hk hv => expandVars_unknown V k hk hv,
   by decide, by decide⟩

/-- Witness for C1 at concrete inputs. -/
theorem expand_vars_spec_witness :
    expandVars "git status".data [("a".data, "1".data)] = "git status".data
    ∧ expandVars ('$' :: '{' :: ("a".data ++ ['}'])) [("a".data, "1".data)] = "1".data
    ∧ expandVars ('$' :: '{' :: ("z".data ++ ['}'])) [("a".data, "1".data)]
        = '$' :: '{' :: ("z".data ++ ['}']) :=
  ⟨expand_vars_spec.1 [("a".data, "1".data)] "git status".data (by decide),
   expand_vars_spec.2.1 [("a".data, "1".data)] "a".data "1".data (by decide) (by decide),
   expand_vars_spec.2.2.1 [("a".data, "1".data)] "z".data (by decide) (by decide)⟩

/-- Claim C2: a forwarded line that tokenizes into `args` spawns exactly
`[baseCommand] + baseArgs + args` (and nothing else is spawned); forwarding
`status` with base `git` and no base-args spawns exactly `["git", "status"]`. -/
theorem forward_invocation_spec :
    (∀ (raw base : Str) (baseArgs : List Str) (V : VMap) (env : Env) (args : List Str),
      raw.head? ≠ some ':' → raw.head? ≠ some '!' →
      shlexSplit (expandVars raw V) = .ok args →
      ∃ tl, (handleCommand raw base baseArgs V env).2.1 =
          Event.spawn (base :: baseArgs ++ args) :: tl ∧ ∀ m, Event.spawn m ∉ tl)
    ∧ (∀ (V : VMap) (env : Env),
      ∃ tl, (handleCommand "status".data "git".data [] V env).2.1 =
          Event.spawn ["git".data, "status".data] :: tl ∧ ∀ m, Event.spawn m ∉ tl) := by
  refine ⟨spawn_head_of_ok, fun V env => ?_⟩
  have htok : shlexSplit (expandVars "status".data V) = .ok ["status".data] := by
    rw [expandVars_no_ref "status".data V (by decide)]
    decide
  simpa using
    spawn_head_of_ok "status".data "git".data [] V env ["status".data]
      (by decide) (by decide) htok

/-- Witness for C2 at concrete inputs. -/
theorem forward_invocation_spec_witness :
    ∃ tl, (handleCommand "status".data "git".data ["-p".data] [] env0).2.1 =
        Event.spawn ("git".data :: ["-p".data] ++ ["status".data]) :: tl
        ∧ ∀ m, Event.spawn m ∉ tl :=
  forward_invocation_spec.1 "status".data "git".data ["-p".data] [] env0 ["status".data]
    (by decide) (by decide) (by decide)

/-- Claim C3: on a forwarded line, a not-found error on spawn reports
"Command not found" and Breaks the session; a non-zero child exit status is
reported on the error stream and the outcome is not Break. -/
theorem spawn_failure_spec :
    ∀ (raw base : Str) (baseArgs : List Str) (V : VMap) (env : Env) (args : List Str),
      raw.head? ≠ some ':' → raw.head? ≠ some '!' →
      shlexSplit (expandVars raw V) = .ok args →
      (env.spawnRes = .notFound →
        (handleCommand raw base baseArgs V env).1 = .brkO ∧
        Event.err ("Command not found: ".data ++ base)
          ∈ (handleCommand raw base baseArgs V env).2.1)
      ∧ (∀ rc : Int, env.spawnRes = .exited rc →
        (handleCommand raw base baseArgs V env).1 ≠ .brkO ∧
        (rc ≠ 0 → Event.err (exitedMsg base rc)
          ∈ (handleCommand raw base baseArgs V env).2.1)) := by
  intro raw base baseArgs V env args h1 h2 htok
  rw [handleCommand_forward raw base baseArgs V env h1 h2]
  unfold handleForward
  rw [htok]
  dsimp only
  constructor
  · intro hnf
    rw [hnf]
    dsimp only
    exact ⟨rfl, by simp⟩
  · intro rc hrc
    rw [hrc]
    dsimp only
    by_cases h : rc ≠ 0
    · rw [if_pos h]
      exact ⟨fun hh => Outcome.noConfusion hh, fun _ => by simp⟩
    · rw [if_neg h]
      exact ⟨fun hh => Outcome.noConfusion hh, fun hcc => absurd hcc h⟩

/-- Witness for C3 at concrete inputs. -/
theorem spawn_failure_spec_witness :
    ((handleCommand "status".data "git".data [] [] envNF).1 = .brkO ∧
      Event.err ("Command not found: ".data ++ "git".data)
        ∈ (handleCommand "status".data "git".data [] [] envNF).2.1)
    ∧ ((handleCommand "status".data "git".data [] [] envRC2).1 ≠ .brkO ∧
      ((2 : Int) ≠ 0 → Event.err (exitedMsg "git".data 2)
        ∈ (handleCommand "status".data "git".data [] [] envRC2).2.1)) :=
  ⟨(spawn_failure_spec "status".data "git".data [] [] envNF ["status".data]
      (by decide) (by decide) (by decide)).1 rfl,
   (spawn_failure_spec "status".data "git".data [] [] envRC2 ["status".data]
      (by decide) (by decide) (by decide)).2 2 rfl⟩

/-- Claim C4: a forwarded line whose substituted text has malformed quoting
fails tokenization; the error is reported on the error stream, the outcome
is Continue, the store is unchanged, and no process is spawned. -/
theorem parse_error_spec :
    ∀ (raw base : Str) (baseArgs : List Str) (V : VMap) (env : Env) (e : Str),
      raw.head? ≠ some ':' → raw.head? ≠ some '!' →
      shlexSplit (expandVars raw V) = .error e →
      handleCommand raw base baseArgs V env =
        (.contO, [Event.err ("parse error: ".data ++ e)], V)
      ∧ ∀ m, Event.spawn m ∉ (handleCommand raw base baseArgs V env).2.1 := by
  intro raw base baseArgs V env e h1 h2 herr
  have heq : handleCommand raw base baseArgs V env =
      (.contO, [Event.err ("parse error: ".data ++ e)], V) := by
    rw [handleCommand_forward raw base baseArgs V env h1 h2]
    unfold handleForward
    rw [herr]
  exact ⟨heq, by rw [heq]; simp⟩

/-- Witness for C4: the unterminated quote from the spec. -/
theorem parse_error_spec_witness :
    handleCommand "echo \"hi".data "git".data [] [] env0 =
      (.contO, [Event.err ("parse error: ".data ++ "No closing quotation".data)], [])
    ∧ ∀ m, Event.spawn m ∉ (handleCommand "echo \"hi".data "git".data [] [] env0).2.1 :=
  parse_error_spec "echo \"hi".data "git".data [] [] env0 "No closing quotation".data
    (by decide) (by decide) (by decide)

/-- Claim C5: a sequence of input lines, each but the last ending in a
backslash, is read as one logical line: each continued segment loses its
trailing backslash, segments are joined with no separator, and the result
is stripped; `foo\` then `bar` yields `foobar`. -/
theorem continuation_join_spec :
    (∀ (ls : List Str) (last : Str) (rest : List Str),
      (∀ l ∈ ls, l.getLast? = some '\\') → ¬ last.getLast? = some '\\' →
      readLogical (ls ++ last :: rest) =
        some (pyStrip ((ls.map List.dropLast).flatten ++ last), rest))
    ∧ readLogical ["foo\\".data, "bar".data] = some ("foobar".data, []) := by
  constructor
  · intro ls last rest hls hlast
    unfold readLogical
    rw [collectParts_run [] ls last rest hls hlast]
    dsimp only
    simp
  · decide

/-- Witness for C5 at concrete inputs. -/
theorem continuation_join_spec_witness :
    readLogical (["ab\\".data] ++ "cd".data :: ["next".data]) =
      some (pyStrip ((["ab\\".data].map List.dropLast).flatten ++ "cd".data),
        ["next".data]) :=
  continuation_join_spec.1 ["ab\\".data] "cd".data ["next".data] (by decide) (by decide)

/-- Claim C6: `set <rest>` with `=` in rest splits on the first `=`, trims
key and value, and stores the binding, overwriting (last set wins, setting
the same value twice is idempotent); without `=` it emits a usage error and
leaves the store unchanged; both outcomes are Continue. -/
theorem set_builtin_spec :
    (∀ (raw rest0 base : Str) (baseArgs : List Str) (V : VMap) (env : Env),
      raw.head? = some ':' →
      pyStrip (raw.drop 1) = "set ".data ++ rest0 →
      (∀ k v, splitFirstEq (pyStrip rest0) = some (k, v) →
        handleCommand raw base baseArgs V env =
          (.contO, [], setV V (pyStrip k) (pyStrip v)))
      ∧ (splitFirstEq (pyStrip rest0) = none →
        handleCommand raw base baseArgs V env =
          (.contO, [Event.err "Usage: :set key=value".data], V)))
    ∧ (∀ s : Str, splitFirstEq s = none ↔ '=' ∉ s)
    ∧ (∀ (V : VMap) (k v : Str), lookupV (setV V k v) k = some v)
    ∧ (∀ (V : VMap) (k v : Str), setV (setV V k v) k v = setV V k v) := by
  refine ⟨?_, splitFirstEq_none_iff, setV_lookup, setV_idem⟩
  intro raw rest0 base baseArgs V env hc hcmd
  rw [handleCommand_builtin raw base baseArgs V env hc, hcmd, handleBuiltin_set rest0 V env]
  constructor
  · intro k v hkv
    rw [hkv]
  · intro hnone
    rw [hnone]

/-- Witness for C6 at concrete inputs. -/
theorem set_builtin_spec_witness :
    handleCommand ":set k= v1 ".data "git".data [] [] env0 =
      (.contO, [], setV [] (pyStrip "k".data) (pyStrip " v1".data)) :=
  (set_builtin_spec.1 ":set k= v1 ".data "k= v1".data "git".data [] [] env0
    (by decide) (by decide)).1 "k".data " v1".data (by decide)

/-- Claim C7: among built-in inputs exactly `q`, `quit` and `exit` (after
stripping) produce Break; every other built-in, including unrecognized
ones, produces an outcome other than Break. -/
theorem exit_family_spec :
    ∀ (raw base : Str) (baseArgs : List Str) (V : VMap) (env : Env),
      raw.head? = some ':' →
      ((handleCommand raw base baseArgs V env).1 = .brkO ↔
        (pyStrip (raw.drop 1) = "q".data ∨ pyStrip (raw.drop 1) = "quit".data ∨
          pyStrip (raw.drop 1) = "exit".data)) := by
  intro raw base baseArgs V env hc
  rw [handleCommand_builtin raw base baseArgs V env hc, handleBuiltin_fst]
  split
  · rename_i h
    exact iff_of_true rfl h
  · rename_i h
    exact iff_of_false (by decide) h

/-- Witness for C7: `:q` Breaks, `:history` does not. -/
theorem exit_family_spec_witness :
    ((handleCommand ":q".data "git".data [] [] env0).1 = .brkO ↔
      (pyStrip (":q".data.drop 1) = "q".data ∨ pyStrip (":q".data.drop 1) = "quit".data ∨
        pyStrip (":q".data.drop 1) = "exit".data))
    ∧ ((handleCommand ":history".data "git".data [] [] env0).1 = .brkO ↔
      (pyStrip (":history".data.drop 1) = "q".data ∨
        pyStrip (":history".data.drop 1) = "quit".data ∨
        pyStrip (":history".data.drop 1) = "exit".data)) :=
  ⟨exit_family_spec ":q".data "git".data [] [] env0 (by decide),
   exit_family_spec ":history".data "git".data [] [] env0 (by decide)⟩

/-- Counterexample to claim C8: with readline active and one recorded
history entry "alpha", the `history` built-in prints the bare entry; the
output line "alpha" is not prefixed by its 1-based index "1". -/
theorem history_index_counterexample :
    (handleCommand ":history".data "git".data [] [] envHist).2.1 =
      [Event.out "alpha".data]
    ∧ ("1".data).isPrefixOf "alpha".data = false :=
  ⟨by decide, by decide⟩

/-- Claim C8 (amended): when readline is active, the `history` built-in
prints each recorded entry (retrieved by 1-based index, in order) one per
line, with no index prefix, and the outcome is Continue. -/
theorem history_builtin_spec :
    ∀ (raw base : Str) (baseArgs : List Str) (V : VMap) (env : Env),
      raw.head? = some ':' → pyStrip (raw.drop 1) = "history".data →
      env.haveReadline = true →
      handleCommand raw base baseArgs V env = (.contO, env.history.map Event.out, V) := by
  intro raw base baseArgs V env hc hcmd hr
  rw [handleCommand_builtin raw base baseArgs V env hc, hcmd,
    handleBuiltin_history V env hr]

/-- Witness for C8 (amended) at concrete inputs. -/
theorem history_builtin_spec_witness :
    handleCommand ":history".data "git".data [] [] envHist =
      (.contO, envHist.history.map Event.out, []) :=
  history_builtin_spec ":history".data "git".data [] [] envHist
    (by decide) (by decide) rfl

/-- Counterexample to claim C9: `:set 1a=2` stores the key "1a", which does
not match the identifier pattern `[A-Za-z_][A-Za-z0-9_]*`; the code never
validates keys. -/
theorem vmap_ident_counterexample :
    (handleCommand ":set 1a=2".data "git".data [] [] env0).2.2 =
      [("1a".data, "2".data)]
    ∧ isValidIdent "1a".data = false :=
  ⟨by decide, by decide⟩

/-- Claim C9 (amended): stored keys may be arbitrary trimmed strings, not
necessarily identifiers; but keys remain unique within a session — every
session operation preserves distinctness of the store's keys (and only
identifier keys are reachable by substitution). -/
theorem vmap_keys_unique_spec :
    ∀ (raw base : Str) (baseArgs : List Str) (V : VMap) (env : Env),
      (keysOf V).Nodup →
      (keysOf (handleCommand raw base baseArgs V env).2.2).Nodup := by
  intro raw base baseArgs V env h
  unfold handleCommand
  split
  · rcases handleBuiltin_vars_eq (pyStrip (raw.drop 1)) V env with hv | ⟨k, v, hv⟩
    · rw [hv]; exact h
    · rw [hv]; exact setV_keys_nodup V k v h
  · split
    · rw [handleShell_vars]; exact h
    · rw [handleForward_vars]; exact h

/-- Witness for C9 (amended) at concrete inputs. -/
theorem vmap_keys_unique_spec_witness :
    (keysOf (handleCommand ":set a=1".data "git".data []
      [("b".data, "2".data)] env0).2.2).Nodup :=
  vmap_keys_unique_spec ":set a=1".data "git".data [] [("b".data, "2".data)] env0
    (by decide)

/-- Claim C10: substitution applies only to forwarded lines — a shell
escape runs the raw stripped text with `${name}` left literal whatever the
store holds, a `:set` built-in stores a literal `${a}` value unexpanded,
and no built-in or shell-escape line ever spawns a forwarded child. -/
theorem no_expansion_outside_forward_spec :
    (∀ (t base : Str) (baseArgs : List Str) (V : VMap) (env : Env),
      ¬ pyStrip t = [] →
      ∃ tl, (handleCommand ('!' :: t) base baseArgs V env).2.1 =
          Event.shell (pyStrip t) :: tl)
    ∧ (∀ (base : Str) (baseArgs : List Str) (V : VMap) (env : Env),
      handleCommand ":set k=${a}".data base baseArgs V env =
        (.contO, [], setV V "k".data "${a}".data))
    ∧ (∀ (raw base : Str) (baseArgs : List Str) (V : VMap) (env : Env) (l : List Str),
      raw.head? = some ':' ∨ raw.head? = some '!' →
      Event.spawn l ∉ (handleCommand raw base baseArgs V env).2.1) := by
  refine ⟨?_, ?_, ?_⟩
  · intro t base baseArgs V env hne
    rw [handleCommand_shell ('!' :: t) base baseArgs V env rfl,
      show ('!' :: t).drop 1 = t from rfl]
    unfold handleShell
    dsimp only
    rw [if_neg hne]
    by_cases hrc : env.shellRc ≠ 0
    · rw [if_pos hrc]
      exact ⟨_, rfl⟩
    · rw [if_neg hrc]
      exact ⟨_, rfl⟩
  · intro base baseArgs V env
    rw [handleCommand_builtin ":set k=${a}".data base baseArgs V env rfl,
      show pyStrip ((":set k=${a}".data).drop 1) = "set ".data ++ "k=${a}".data
        from by decide,
      handleBuiltin_set "k=${a}".data V env,
      show splitFirstEq (pyStrip "k=${a}".data) = some ("k".data, "${a}".data)
        from by decide]
    dsimp only
    rw [show pyStrip "k".data = "k".data from by decide,
      show pyStrip "${a}".data = "${a}".data from by decide]
  · intro raw base baseArgs V env l h
    rcases h with h | h
    · rw [handleCommand_builtin raw base baseArgs V env h]
      exact handleBuiltin_no_spawn (pyStrip (raw.drop 1)) V env l
    · rw [handleCommand_shell raw base baseArgs V env h]
      exact handleShell_no_spawn (raw.drop 1) V env l

/-- Witness for C10: a shell escape whose text mentions `${a}` while `a` is
in the store still receives the literal text. -/
theorem no_expansion_outside_forward_spec_witness :
    ∃ tl, (handleCommand ('!' :: " ls ${a}".data) "git".data []
        [("a".data, "1".data)] env0).2.1 =
      Event.shell (pyStrip " ls ${a}".data) :: tl :=
  no_expansion_outside_forward_spec.1 " ls ${a}".data "git".data []
    [("a".data, "1".data)] env0 (by decide)

end Wrap
